import Mathlib

/-!
# Verification of the AQS MCP server's request pipeline

Shallow embedding of the rate-limited, validated API request pipeline of the
`aqs-mcp` repository (`src/client.ts`, `src/index.ts`, `src/tools/signup.ts`,
`src/tools/samples.ts`), together with theorems settling the specification's
claims about it.

Modelling conventions:
* JavaScript strings that may be `undefined`/`null` are `Option String`
  (`none` = absent); JS truthiness of such a value is `truthy`.
* `Date.now()` timestamps are integers (milliseconds); an `await sleep(ms)`
  is idealised as advancing the clock by exactly `ms`.
* The network is an oracle `Url → HttpResult`: `fetch` applied to the built
  URL returns the oracle's answer (`ok` models `response.ok`, i.e. a 2xx
  status; the parsed JSON body is carried as an `AqsResponse`).
* Thrown `Error` values are the explicit `ClientError` inductive; each
  constructor's human-readable message (`ClientError.message`) reproduces
  the string built at the corresponding `throw` site (transport errors carry
  the `AQS API request failed: ` re-wrap prefix applied by `aqs`'s catch
  block). Record serialisation by `JSON.stringify` is reproduced without
  string escaping, which no claim inspects.
-/

namespace AqsMcp

/-- An optional JS string: `none` models `undefined` / `null`. -/
abbrev JsStr := Option String

/-- JS truthiness of an optional string: `undefined`, `null` and `""` are
falsy, every other string is truthy. -/
def truthy : JsStr → Bool
  | none => false
  | some s => !(s == "")

/-- JS `a || b` on optional strings: yields `a` when `a` is truthy,
otherwise `b`. -/
def jsOr (a b : JsStr) : JsStr := if truthy a then a else b

/-- JS string coercion of a possibly-absent value, as performed by
`RegExp.test` and template literals: `undefined` prints as `"undefined"`. -/
def jsToString : JsStr → String
  | none => "undefined"
  | some s => s

/-- Response header record (`AqsHeader` in `src/types.ts`). -/
structure AqsHeader where
  status : String
  request_time : String
  url : String
  rows : Option Nat
  deriving Repr, DecidableEq

/-- A data record of the envelope, abstracted as a list of key/value pairs
(the concrete per-endpoint record interfaces of `src/types.ts` are all flat
string/number records; no claim inspects their fields). -/
abbrev DataRecord := List (String × String)

/-- Response envelope (`AqsResponse` in `src/types.ts`): a `Header` array
plus a `Data` array. -/
structure AqsResponse where
  Header : List AqsHeader
  Data : List DataRecord
  deriving Repr, DecidableEq

/-- Every `Error` thrown by the pipeline, one constructor per `throw` site. -/
inductive ClientError where
  /-- `validateDateFormat`: the token is not exactly 8 digits. -/
  | invalidDateFormat (field value : String)
  /-- `validateDateFormat`: month outside [1,12]. -/
  | invalidMonth (field : String) (m : Nat)
  /-- `validateDateFormat`: day outside [1,31]. -/
  | invalidDay (field : String) (d : Nat)
  /-- `validateDateRange`: begin/end year substrings differ. -/
  | crossYearRange (bdate edate : String)
  /-- `validateDateFormat`: year outside [1900,2100]. -/
  | invalidYear (field : String) (y : Nat)
  /-- `resolveCredentials`: no email from parameter or environment. -/
  | missingEmail
  /-- `resolveCredentials`: no API key from parameter or environment. -/
  | missingKey
  /-- `aqs`: HTTP status outside the success range. -/
  | httpError (status : Nat) (statusText : String)
  /-- `aqs`: envelope header reports the literal failure marker `Failed`. -/
  | apiFailed (header : AqsHeader)
  deriving Repr, DecidableEq

/-- The spec's `InvalidDateValue` class: month, day or year out of range. -/
def ClientError.isInvalidDateValue : ClientError → Bool
  | .invalidMonth _ _ => true
  | .invalidDay _ _ => true
  | .invalidYear _ _ => true
  | _ => false

/-- The spec's `TransportError` class: HTTP-level or API-level failure. -/
def ClientError.isTransportError : ClientError → Bool
  | .httpError _ _ => true
  | .apiFailed _ => true
  | _ => false

/-! ## Rate-limit gate (`src/client.ts`, `enforceRateLimit`) -/

/-- `RATE_LIMIT_MS = 5000` — 5 seconds between requests. -/
def RATE_LIMIT_MS : Int := 5000

/-- One pass through `enforceRateLimit`, idealising `await sleep(ms)` as
advancing the clock by exactly `ms`.  `now` is `Date.now()` on entry and
`last` the stored `lastRequestTime` (initially `0`, meaning "never").
Returns the value stored back into `lastRequestTime`, which is `Date.now()`
re-read after the wait — the recorded start time of this request. -/
def enforceRateLimit (now last : Int) : Int :=
  let timeSinceLastRequest := now - last
  if timeSinceLastRequest < RATE_LIMIT_MS ∧ 0 < last then
    now + (RATE_LIMIT_MS - timeSinceLastRequest)
  else
    now

/-! ## URL construction (`src/client.ts`, `buildUrl`) -/

/-- `AQS_BASE_URL` from `src/client.ts`. -/
def AQS_BASE_URL : String := "https://aqs.epa.gov/data/api"

/-- A constructed request URL: fixed base, endpoint path, and the ordered
query key/value pairs appended via `url.searchParams.append`. -/
structure Url where
  base : String
  endpoint : String
  query : List (String × String)
  deriving Repr, DecidableEq

/-- `buildUrl` from `src/client.ts`: appends the endpoint to the fixed base
and attaches each parameter whose value is neither `undefined`/`null` nor
the empty string. -/
def buildUrl (endpoint : String) (params : List (String × JsStr)) : Url :=
  { base := AQS_BASE_URL
    endpoint := endpoint
    query := params.filterMap fun kv =>
      match kv.2 with
      | some v => if v = "" then none else some (kv.1, v)
      | none => none }

/-! ## Date validators (`src/client.ts`) -/

/-- Value of a digit-character sequence read left to right, as
`parseInt(s, 10)` computes it on an all-digit string. -/
def digitsToNat (cs : List Char) : Nat :=
  cs.foldl (fun acc c => acc * 10 + (c.toNat - 48)) 0

/-- The test `/^\d{8}$/.test(date)`: exactly eight ASCII digits. -/
def isEightDigits (s : String) : Bool :=
  s.length == 8 && s.toList.all Char.isDigit

/-- `validateDateFormat` from `src/client.ts`: 8-digit shape, then month in
[1,12], day in [1,31], year in [1900,2100], each failure reproducing the
corresponding `throw`. -/
def validateDateFormat (date fieldName : String) : Except ClientError Unit :=
  if !(isEightDigits date) then
    .error (.invalidDateFormat fieldName date)
  else
    let ds := date.toList
    let year := digitsToNat (ds.take 4)
    let month := digitsToNat ((ds.drop 4).take 2)
    let day := digitsToNat (ds.drop 6)
    if month < 1 ∨ month > 12 then .error (.invalidMonth fieldName month)
    else if day < 1 ∨ day > 31 then .error (.invalidDay fieldName day)
    else if year < 1900 ∨ year > 2100 then .error (.invalidYear fieldName year)
    else .ok ()

/-- `validateDateRange` from `src/client.ts`: compare the
`substring(0, 4)` year substrings of the two tokens. -/
def validateDateRange (bdate edate : String) : Except ClientError Unit :=
  let beginYear := bdate.take 4
  let endYear := edate.take 4
  if beginYear ≠ endYear then .error (.crossYearRange bdate edate)
  else .ok ()

/-! ## Credential resolution (`src/client.ts`) -/

/-- The process environment: the two optional credential variables. -/
structure Env where
  AQS_EMAIL : JsStr
  AQS_API_KEY : JsStr
  deriving Repr, DecidableEq

/-- `getDefaultCredentials`: read both variables from the environment. -/
def getDefaultCredentials (env : Env) : JsStr × JsStr :=
  (env.AQS_EMAIL, env.AQS_API_KEY)

/-- A resolved credential pair. -/
structure Credentials where
  email : String
  key : String
  deriving Repr, DecidableEq

/-- `resolveCredentials` from `src/client.ts`: prefer the provided value via
JS `||` (so the empty string falls through), fall back to the environment,
and throw — email checked first — when a field resolves to a falsy value. -/
def resolveCredentials (env : Env) (providedEmail providedKey : JsStr) :
    Except ClientError Credentials :=
  let defaults := getDefaultCredentials env
  let email := jsOr providedEmail defaults.1
  let key := jsOr providedKey defaults.2
  if truthy email = false then .error .missingEmail
  else if truthy key = false then .error .missingKey
  else .ok ⟨email.getD "", key.getD ""⟩

/-! ## Transport (`src/client.ts`, `aqs`) -/

/-- Result of `fetch` on a URL, with the JSON body already parsed into the
envelope shape: `ok` is `response.ok` (status in the 2xx success range). -/
structure HttpResult where
  ok : Bool
  status : Nat
  statusText : String
  body : AqsResponse
  deriving Repr, DecidableEq

/-- The network, as an oracle from request URL to HTTP result. -/
abbrev Net := Url → HttpResult

/-- The response-classification part of `aqs`: reject a non-2xx status,
then reject an envelope whose non-empty header array starts with status
`"Failed"`, otherwise return the parsed envelope unchanged. -/
def classifyAqsResponse (r : HttpResult) : Except ClientError AqsResponse :=
  if r.ok = false then .error (.httpError r.status r.statusText)
  else
    match r.body.Header with
    | [] => .ok r.body
    | h :: _ => if h.status = "Failed" then .error (.apiFailed h) else .ok r.body

/-- `aqs` from `src/client.ts`: enforce the rate limit (mutating the
throttle marker), build the URL, issue the single GET, classify the
response.  Returns the call result, the new throttle marker, and the list
of requests issued (always exactly one — issued before classification, so
even failing calls consumed their slot). -/
def aqs (net : Net) (now last : Int) (endpoint : String)
    (params : List (String × JsStr)) :
    Except ClientError AqsResponse × Int × List Url :=
  let t := enforceRateLimit now last
  let url := buildUrl endpoint params
  let r := net url
  (classifyAqsResponse r, t, [url])

/-! ## Error messages

The human-readable message of each thrown `Error`, reproducing the string
built at the corresponding `throw` site.  `httpError`/`apiFailed` are always
thrown inside `aqs`'s `try`, whose `catch` rethrows them wrapped in
`AQS API request failed: `; that wrap is baked into their messages. -/

/-- `JSON.stringify` of a header record (string escaping elided). -/
def AqsHeader.json (h : AqsHeader) : String :=
  "\x7b\"status\":\"" ++ h.status ++ "\",\"request_time\":\"" ++ h.request_time
    ++ "\",\"url\":\"" ++ h.url ++ "\""
    ++ (match h.rows with
        | some n => ",\"rows\":" ++ toString n
        | none => "")
    ++ "\x7d"

/-- Message text of each error, as thrown by the source. -/
def ClientError.message : ClientError → String
  | .invalidDateFormat f v =>
      f ++ " must be in YYYYMMDD format. Got: " ++ v
  | .invalidMonth f m => f ++ " has invalid month: " ++ toString m
  | .invalidDay f d => f ++ " has invalid day: " ++ toString d
  | .invalidYear f y => f ++ " has invalid year: " ++ toString y
  | .crossYearRange b e =>
      "Begin date (" ++ b ++ ") and end date (" ++ e
        ++ ") must be in the same calendar year. Got years "
        ++ b.take 4 ++ " and " ++ e.take 4 ++ "."
  | .missingEmail =>
      "Email is required. Provide it as a parameter or set AQS_EMAIL environment variable."
  | .missingKey =>
      "API key is required. Provide it as a parameter or set AQS_API_KEY environment variable."
  | .httpError s t =>
      "AQS API request failed: HTTP " ++ toString s ++ ": " ++ t
  | .apiFailed h =>
      "AQS API request failed: AQS API Error: " ++ h.json

/-! ## Tool responses and dispatch (`src/index.ts`) -/

/-- One `{ type: 'text', text }` content item. -/
structure ContentItem where
  text : String
  deriving Repr, DecidableEq

/-- A tool call response: content items plus the optional `isError` flag
(`none` when the source object carries no `isError` field). -/
structure ToolResponse where
  content : List ContentItem
  isError : Option Bool := none
  deriving Repr, DecidableEq

/-- The `CallToolRequestSchema` handler of `src/index.ts`: look the tool up
by name (unknown name → explicit error result), run its handler, and catch
any thrown error into a text response flagged `isError: true`. -/
def dispatch {A : Type} (tools : List (String × (A → Except ClientError ToolResponse)))
    (name : String) (args : A) : ToolResponse :=
  match tools.find? (fun t => t.1 == name) with
  | none =>
      { content := [⟨"Unknown tool: " ++ name⟩], isError := some true }
  | some t =>
      match t.2 args with
      | .ok r => r
      | .error e =>
          { content := [⟨"Error: " ++ e.message⟩], isError := some true }

/-! ## Tool handlers (`src/tools/signup.ts`, `src/tools/samples.ts`)

Handlers receive the MCP argument record (all fields optional at runtime),
the environment, the network oracle, the clock value on entry, and the
current throttle marker; they return their response (or the error they let
propagate to `dispatch`), the new throttle marker, and the requests issued. -/

/-- The `Record<string, string>` argument object of a tool call; `none`
models a field absent at runtime. -/
structure ToolArgs where
  email : JsStr := none
  key : JsStr := none
  param : JsStr := none
  bdate : JsStr := none
  edate : JsStr := none
  state : JsStr := none
  county : JsStr := none
  site : JsStr := none
  cbsa : JsStr := none
  minlat : JsStr := none
  maxlat : JsStr := none
  minlon : JsStr := none
  maxlon : JsStr := none
  deriving Repr, DecidableEq

/-- Outcome of a stateful handler run: the value handed back to `dispatch`
(a response, or the error the handler let propagate), the throttle marker
after the run, and the URLs requested during the run. -/
abbrev HandlerRun := Except ClientError ToolResponse × Int × List Url

/-- JS `s.includes(pat)` on strings (computed on the character lists). -/
def strIncludes (s pat : String) : Bool :=
  (List.range (s.length + 1)).any fun i => pat.toList.isPrefixOf (s.toList.drop i)

/-- JS `s.toLowerCase()` (ASCII, computed on the character list). -/
def strToLower (s : String) : String := ⟨s.toList.map Char.toLower⟩

/-- The `status === 'Success' || status.toLowerCase().includes('success')`
test used by the signup and isAvailable handlers. -/
def statusIsSuccess (status : String) : Bool :=
  status == "Success" || strIncludes (strToLower status) "success"

/-- `response.Header?.[0]?.status || 'Unknown'`. -/
def headerStatus (r : AqsResponse) : String :=
  match r.Header.head? with
  | some h => if h.status = "" then "Unknown" else h.status
  | none => "Unknown"

/-- `JSON.stringify(response, null, 2)` of an envelope, abstracted to a
single-line rendering (indentation and record fields elided; no claim
inspects this text). -/
def AqsResponse.json (r : AqsResponse) : String :=
  "\x7b\"Header\":[" ++ String.intercalate "," (r.Header.map AqsHeader.json)
    ++ "],\"Data\":[...]\x7d"

/-- `signupTool.handler` from `src/tools/signup.ts`: guard on a present,
plausible email, then call `aqs('signup', { email })` — the one upstream
request that carries no `key` parameter — and render the outcome.  All its
errors are caught internally (no `isError` flag is ever set). -/
def signupHandler (net : Net) (now last : Int) (args : ToolArgs) : HandlerRun :=
  match args.email with
  | none =>
      (.ok { content := [⟨"Error: Email address is required for API key registration."⟩] },
        last, [])
  | some email =>
      if email = "" then
        (.ok { content := [⟨"Error: Email address is required for API key registration."⟩] },
          last, [])
      else if !(strIncludes email "@" && strIncludes email ".") then
        (.ok { content := [⟨"Error: Please provide a valid email address."⟩] }, last, [])
      else
        let (res, last', urls) := aqs net now last "signup" [("email", some email)]
        match res with
        | .ok response =>
            if statusIsSuccess (headerStatus response) then
              (.ok { content := [⟨"API key registration successful!\n\n"
                  ++ "An API key has been sent to: " ++ email ++ "\n\n"
                  ++ "Please check your email (including spam folder) for the API key. "
                  ++ "Once received, you can use it with the AQS_API_KEY environment variable "
                  ++ "or pass it directly to API calls."⟩] }, last', urls)
            else
              (.ok { content := [⟨"Signup response: " ++ response.json⟩] }, last', urls)
        | .error e =>
            (.ok { content := [⟨"Error during signup: " ++ e.message⟩] }, last', urls)

/-- `isAvailableTool.handler` from `src/tools/signup.ts`: resolve
credentials, call `aqs('metaData/isAvailable', { email, key })`, and render
the outcome; every error is caught internally, credential errors getting a
dedicated message. -/
def isAvailableHandler (env : Env) (net : Net) (now last : Int)
    (args : ToolArgs) : HandlerRun :=
  match resolveCredentials env args.email args.key with
  | .error e =>
      -- the catch block tests `errorMessage.includes('Email is required')`
      -- / `includes('API key is required')`, which matches exactly the two
      -- credential errors
      if e = .missingEmail ∨ e = .missingKey then
        (.ok { content := [⟨"Credentials required: " ++ e.message ++ "\n\n"
            ++ "Provide email and key parameters, or set AQS_EMAIL and AQS_API_KEY environment variables."⟩] },
          last, [])
      else
        (.ok { content := [⟨"EPA AQS API Status: UNAVAILABLE or ERROR\n\nError: "
            ++ e.message⟩] }, last, [])
  | .ok c =>
      let (res, last', urls) :=
        aqs net now last "metaData/isAvailable"
          [("email", some c.email), ("key", some c.key)]
      match res with
      | .ok response =>
          if statusIsSuccess (headerStatus response) then
            (.ok { content := [⟨"EPA AQS API Status: AVAILABLE\n\n"
                ++ "The API is operational and responding to requests.\nRequest time: "
                ++ (match response.Header.head? with
                    | some h => if h.request_time = "" then "N/A" else h.request_time
                    | none => "N/A")⟩] }, last', urls)
          else
            (.ok { content := [⟨"EPA AQS API Status: " ++ headerStatus response
                ++ "\n\nResponse: " ++ response.json⟩] }, last', urls)
      | .error e =>
          (.ok { content := [⟨"EPA AQS API Status: UNAVAILABLE or ERROR\n\nError: "
              ++ e.message⟩] }, last', urls)

/-- `formatSampleDataResponse` from `src/tools/samples.ts` (record
serialisation elided as in `AqsResponse.json`). -/
def formatSampleDataResponse (data : List DataRecord) (endpoint : String) : String :=
  if data.isEmpty then
    "\x7b\"message\":\"No sample data found for the specified parameters.\",\"endpoint\":\""
      ++ endpoint ++ "\",\"count\":0\x7d"
  else
    "\x7b\"message\":\"Retrieved " ++ toString data.length
      ++ " sample data records.\",\"endpoint\":\"" ++ endpoint
      ++ "\",\"count\":" ++ toString data.length ++ ",\"data\":[...]\x7d"

/-- Shared spine of the five sample-data handlers: resolve credentials,
validate both dates and the range (each failure propagating to `dispatch`
before any state change or request), then call `aqs` with the
endpoint-specific parameter map built from the resolved credentials. -/
def sampleHandlerCore (env : Env) (net : Net) (now last : Int)
    (args : ToolArgs) (endpoint : String)
    (extraParams : List (String × JsStr)) : HandlerRun :=
  match resolveCredentials env args.email args.key with
  | .error e => (.error e, last, [])
  | .ok c =>
      match validateDateFormat (jsToString args.bdate) "bdate" with
      | .error e => (.error e, last, [])
      | .ok _ =>
          match validateDateFormat (jsToString args.edate) "edate" with
          | .error e => (.error e, last, [])
          | .ok _ =>
              match validateDateRange (jsToString args.bdate) (jsToString args.edate) with
              | .error e => (.error e, last, [])
              | .ok _ =>
                  let (res, last', urls) :=
                    aqs net now last endpoint
                      ([("email", some c.email), ("key", some c.key),
                        ("param", args.param), ("bdate", args.bdate),
                        ("edate", args.edate)] ++ extraParams)
                  match res with
                  | .error e => (.error e, last', urls)
                  | .ok response =>
                      (.ok { content :=
                          [⟨formatSampleDataResponse response.Data endpoint⟩] },
                        last', urls)

/-- `sampleDataBySite.handler` from `src/tools/samples.ts`. -/
def sampleDataBySiteHandler (env : Env) (net : Net) (now last : Int)
    (args : ToolArgs) : HandlerRun :=
  sampleHandlerCore env net now last args "sampleData/bySite"
    [("state", args.state), ("county", args.county), ("site", args.site)]

/-- `sampleDataByCounty.handler` from `src/tools/samples.ts`. -/
def sampleDataByCountyHandler (env : Env) (net : Net) (now last : Int)
    (args : ToolArgs) : HandlerRun :=
  sampleHandlerCore env net now last args "sampleData/byCounty"
    [("state", args.state), ("county", args.county)]

/-- `sampleDataByState.handler` from `src/tools/samples.ts`. -/
def sampleDataByStateHandler (env : Env) (net : Net) (now last : Int)
    (args : ToolArgs) : HandlerRun :=
  sampleHandlerCore env net now last args "sampleData/byState"
    [("state", args.state)]

/-- `sampleDataByBox.handler` from `src/tools/samples.ts`. -/
def sampleDataByBoxHandler (env : Env) (net : Net) (now last : Int)
    (args : ToolArgs) : HandlerRun :=
  sampleHandlerCore env net now last args "sampleData/byBox"
    [("minlat", args.minlat), ("maxlat", args.maxlat),
     ("minlon", args.minlon), ("maxlon", args.maxlon)]

/-- `sampleDataByCbsa.handler` from `src/tools/samples.ts`. -/
def sampleDataByCbsaHandler (env : Env) (net : Net) (now last : Int)
    (args : ToolArgs) : HandlerRun :=
  sampleHandlerCore env net now last args "sampleData/byCBSA"
    [("cbsa", args.cbsa)]

/-- The credential-resolving handlers modelled here (every handler of
`src/tools/signup.ts` and `src/tools/samples.ts` except `signupTool`),
abstracted over environment, network, clock and marker. -/
def credentialedHandlers :
    List (Env → Net → Int → Int → ToolArgs → HandlerRun) :=
  [isAvailableHandler, sampleDataBySiteHandler, sampleDataByCountyHandler,
   sampleDataByStateHandler, sampleDataByBoxHandler, sampleDataByCbsaHandler]

/-! ## Specification-side views of the date tokens

Independent arithmetic reading of an 8-digit token: its decimal value and
the year/month/day extracted by place value, used to state the validator
claims without repeating the validator's own substring decomposition. -/

/-- Decimal value of the whole token. -/
def dateNum (s : String) : Nat := digitsToNat s.toList

/-- Year by place value: the leading four decimal digits. -/
def dateYear (s : String) : Nat := dateNum s / 10000

/-- Month by place value: digits five and six. -/
def dateMonth (s : String) : Nat := dateNum s / 100 % 100

/-- Day by place value: the trailing two digits. -/
def dateDay (s : String) : Nat := dateNum s % 100

/-! ### Arithmetic of `digitsToNat` -/

theorem foldl_digits_init (cs : List Char) (init : Nat) :
    cs.foldl (fun acc c => acc * 10 + (c.toNat - 48)) init
      = init * 10 ^ cs.length + digitsToNat cs := by
  induction cs generalizing init with
  | nil => simp [digitsToNat]
  | cons c cs ih =>
      simp only [List.foldl_cons, List.length_cons]
      rw [ih (init * 10 + (c.toNat - 48))]
      conv_rhs => rw [show digitsToNat (c :: cs)
        = cs.foldl (fun acc c => acc * 10 + (c.toNat - 48)) (0 * 10 + (c.toNat - 48)) from rfl]
      rw [ih (0 * 10 + (c.toNat - 48))]
      ring

theorem digitsToNat_append (a b : List Char) :
    digitsToNat (a ++ b) = digitsToNat a * 10 ^ b.length + digitsToNat b := by
  unfold digitsToNat
  rw [List.foldl_append, foldl_digits_init]
  rfl

theorem digit_toNat_bounds {c : Char} (h : c.isDigit = true) :
    48 ≤ c.toNat ∧ c.toNat ≤ 57 := by
  simp [Char.isDigit] at h
  exact ⟨h.1, h.2⟩

theorem digitsToNat_lt (cs : List Char) (h : ∀ c ∈ cs, c.isDigit = true) :
    digitsToNat cs < 10 ^ cs.length := by
  induction cs with
  | nil => simp [digitsToNat]
  | cons c cs ih =>
      have hc := digit_toNat_bounds (h c (List.mem_cons_self _ _))
      have hcs := ih fun x hx => h x (List.mem_cons_of_mem _ hx)
      have hstep : digitsToNat (c :: cs)
          = (c.toNat - 48) * 10 ^ cs.length + digitsToNat cs := by
        conv_lhs => rw [show digitsToNat (c :: cs)
          = cs.foldl (fun acc c => acc * 10 + (c.toNat - 48)) (0 * 10 + (c.toNat - 48)) from rfl]
        rw [foldl_digits_init]
        ring
      rw [hstep, List.length_cons, pow_succ]
      have hd : c.toNat - 48 ≤ 9 := by omega
      calc (c.toNat - 48) * 10 ^ cs.length + digitsToNat cs
          < (c.toNat - 48) * 10 ^ cs.length + 10 ^ cs.length := by omega
        _ = (c.toNat - 48 + 1) * 10 ^ cs.length := by ring
        _ ≤ 10 * 10 ^ cs.length := Nat.mul_le_mul_right _ (by omega)
        _ = 10 ^ cs.length * 10 := by ring

theorem mul_add_digits_inj {K x y r s : Nat} (hr : r < K) (hs : s < K)
    (h : x * K + r = y * K + s) : x = y ∧ r = s := by
  have hxy : x = y := by
    rcases Nat.lt_trichotomy x y with hlt | heq | hgt
    · have h1 : (x + 1) * K ≤ y * K := Nat.mul_le_mul_right K hlt
      have h2 : (x + 1) * K = x * K + K := by ring
      omega
    · exact heq
    · have h1 : (y + 1) * K ≤ x * K := Nat.mul_le_mul_right K hgt
      have h2 : (y + 1) * K = y * K + K := by ring
      omega
  subst hxy
  omega

theorem digitsToNat_injOn (a : List Char) :
    ∀ b : List Char, a.length = b.length →
      (∀ c ∈ a, c.isDigit = true) → (∀ c ∈ b, c.isDigit = true) →
      digitsToNat a = digitsToNat b → a = b := by
  induction a with
  | nil =>
      intro b hlen _ _ _
      exact (List.length_eq_zero.mp hlen.symm).symm ▸ rfl
  | cons c a ih =>
      intro b hlen ha hb h
      cases b with
      | nil => simp at hlen
      | cons d b =>
          have hlen' : a.length = b.length := by simpa using hlen
          have hca : digitsToNat (c :: a)
              = (c.toNat - 48) * 10 ^ a.length + digitsToNat a := by
            conv_lhs => rw [show digitsToNat (c :: a)
              = a.foldl (fun acc c => acc * 10 + (c.toNat - 48)) (0 * 10 + (c.toNat - 48)) from rfl]
            rw [foldl_digits_init]; ring
          have hdb : digitsToNat (d :: b)
              = (d.toNat - 48) * 10 ^ b.length + digitsToNat b := by
            conv_lhs => rw [show digitsToNat (d :: b)
              = b.foldl (fun acc c => acc * 10 + (c.toNat - 48)) (0 * 10 + (d.toNat - 48)) from rfl]
            rw [foldl_digits_init]; ring
          rw [hca, hdb, ← hlen'] at h
          have hba : digitsToNat a < 10 ^ a.length :=
            digitsToNat_lt a fun x hx => ha x (List.mem_cons_of_mem _ hx)
          have hbb : digitsToNat b < 10 ^ a.length := by
            rw [hlen']
            exact digitsToNat_lt b fun x hx => hb x (List.mem_cons_of_mem _ hx)
          obtain ⟨h1, h2⟩ := mul_add_digits_inj hba hbb h
          have hc := digit_toNat_bounds (ha c (List.mem_cons_self _ _))
          have hd := digit_toNat_bounds (hb d (List.mem_cons_self _ _))
          have hcd : c.toNat = d.toNat := by omega
          have : c = d := Char.ext (UInt32.ext hcd)
          rw [this, ih b hlen' (fun x hx => ha x (List.mem_cons_of_mem _ hx))
            (fun x hx => hb x (List.mem_cons_of_mem _ hx)) h2]

theorem isEightDigits_iff (s : String) :
    isEightDigits s = true ↔
      (s.toList.length = 8 ∧ ∀ c ∈ s.toList, c.isDigit = true) := by
  unfold isEightDigits
  rw [Bool.and_eq_true, beq_iff_eq, List.all_eq_true]
  exact Iff.rfl

theorem dateNum_decomp (s : String) (h8 : isEightDigits s = true) :
    digitsToNat (s.toList.take 4) = dateYear s ∧
    digitsToNat ((s.toList.drop 4).take 2) = dateMonth s ∧
    digitsToNat (s.toList.drop 6) = dateDay s := by
  obtain ⟨hlen, hdig⟩ := (isEightDigits_iff s).mp h8
  have hsplit : s.toList = s.toList.take 4 ++ ((s.toList.drop 4).take 2 ++ s.toList.drop 6) := by
    rw [show s.toList.drop 6 = (s.toList.drop 4).drop 2 by simp [List.drop_drop]]
    rw [List.take_append_drop, List.take_append_drop]
  have l2 : ((s.toList.drop 4).take 2).length = 2 := by
    rw [List.length_take, List.length_drop]; omega
  have l2' : (s.toList.drop 6).length = 2 := by rw [List.length_drop]; omega
  have hm : digitsToNat ((s.toList.drop 4).take 2) < 100 := by
    have := digitsToNat_lt ((s.toList.drop 4).take 2) fun c hc =>
      hdig c (List.drop_subset _ _ (List.take_subset _ _ hc))
    rw [l2] at this; omega
  have hd : digitsToNat (s.toList.drop 6) < 100 := by
    have := digitsToNat_lt (s.toList.drop 6) fun c hc =>
      hdig c (List.drop_subset _ _ hc)
    rw [l2'] at this; omega
  have hval : dateNum s
      = digitsToNat (s.toList.take 4) * 10000
        + (digitsToNat ((s.toList.drop 4).take 2) * 100 + digitsToNat (s.toList.drop 6)) := by
    unfold dateNum
    conv_lhs => rw [hsplit]
    rw [digitsToNat_append, digitsToNat_append, List.length_append, l2, l2']
    norm_num
  unfold dateYear dateMonth dateDay
  rw [hval]
  refine ⟨?_, ?_, ?_⟩ <;> omega

theorem validateDateFormat_ok_eight {s f : String}
    (h : validateDateFormat s f = .ok ()) : isEightDigits s = true := by
  cases hx : isEightDigits s with
  | true => rfl
  | false => rw [validateDateFormat, hx] at h; simp at h

theorem take4_eq_iff_dateYear {b e : String}
    (hb : isEightDigits b = true) (he : isEightDigits e = true) :
    b.take 4 = e.take 4 ↔ dateYear b = dateYear e := by
  obtain ⟨hlb, hdb⟩ := (isEightDigits_iff b).mp hb
  obtain ⟨hle, hde⟩ := (isEightDigits_iff e).mp he
  constructor
  · intro h
    rw [String.take_eq, String.take_eq] at h
    have hdata : b.toList.take 4 = e.toList.take 4 := congrArg String.data h
    rw [← (dateNum_decomp b hb).1, ← (dateNum_decomp e he).1, hdata]
  · intro h
    have h' : digitsToNat (b.toList.take 4) = digitsToNat (e.toList.take 4) := by
      rw [(dateNum_decomp b hb).1, (dateNum_decomp e he).1, h]
    have hlen : (b.toList.take 4).length = (e.toList.take 4).length := by
      rw [List.length_take, List.length_take]; omega
    have heq := digitsToNat_injOn (b.toList.take 4) (e.toList.take 4) hlen
      (fun c hc => hdb c (List.take_subset _ _ hc))
      (fun c hc => hde c (List.take_subset _ _ hc)) h'
    rw [String.take_eq, String.take_eq]
    exact congrArg String.mk heq

/-! ## Claim theorems -/

/-- C1: whenever the throttle marker holds a previous request start
(`0 < last`, i.e. not the initial "never" value) and the clock has not gone
backwards, the request start recorded by the rate-limit gate is at least
`RATE_LIMIT_MS = 5000` ms after the previous one (and in particular strictly
later). -/
theorem enforceRateLimit_min_spacing (now last : Int)
    (hprev : 0 < last) (hclock : last ≤ now) :
    RATE_LIMIT_MS ≤ enforceRateLimit now last - last ∧
      last < enforceRateLimit now last := by
  unfold enforceRateLimit RATE_LIMIT_MS
  dsimp only
  split_ifs with h
  · omega
  · omega

/-- Witness for C1 at `now = 3000`, `last = 1000`: the gate waits and the
recorded start is 5000 ms after the previous one. -/
theorem enforceRateLimit_min_spacing_witness :
    (0 : Int) < 1000 ∧ (1000 : Int) ≤ 3000 ∧
      (RATE_LIMIT_MS ≤ enforceRateLimit 3000 1000 - 1000 ∧
        (1000 : Int) < enforceRateLimit 3000 1000) :=
  ⟨by decide, by decide,
    enforceRateLimit_min_spacing 3000 1000 (by decide) (by decide)⟩

/-- C4: format validation fails with `InvalidDateFormat` exactly on inputs
that are not eight ASCII digits; on an eight-digit input it succeeds exactly
when the place-value month lies in [1,12], the day in [1,31] and the year in
[1900,2100] (so day 31 is accepted for every month, with no month-length or
leap-year check — e.g. `20240231` passes), and every failure on an
eight-digit input is an `InvalidDateValue`. -/
theorem validateDateFormat_spec (s f : String) :
    (validateDateFormat s f = .error (.invalidDateFormat f s) ↔
      ¬ (s.toList.length = 8 ∧ ∀ c ∈ s.toList, c.isDigit = true)) ∧
    ((s.toList.length = 8 ∧ ∀ c ∈ s.toList, c.isDigit = true) →
      ((validateDateFormat s f = .ok () ↔
        (1 ≤ dateMonth s ∧ dateMonth s ≤ 12 ∧ 1 ≤ dateDay s ∧ dateDay s ≤ 31 ∧
          1900 ≤ dateYear s ∧ dateYear s ≤ 2100)) ∧
       (∀ err, validateDateFormat s f = .error err →
          err.isInvalidDateValue = true))) := by
  by_cases h8 : isEightDigits s = true
  · have hspec := (isEightDigits_iff s).mp h8
    obtain ⟨hy, hm, hd⟩ := dateNum_decomp s h8
    have hred : validateDateFormat s f =
        (if dateMonth s < 1 ∨ dateMonth s > 12 then
          .error (.invalidMonth f (dateMonth s))
        else if dateDay s < 1 ∨ dateDay s > 31 then
          .error (.invalidDay f (dateDay s))
        else if dateYear s < 1900 ∨ dateYear s > 2100 then
          .error (.invalidYear f (dateYear s))
        else .ok ()) := by
      rw [validateDateFormat, h8]
      simp only [Bool.not_true, Bool.false_eq_true, if_false, hy, hm, hd]
    refine ⟨?_, fun _ => ⟨?_, ?_⟩⟩
    · rw [hred]
      constructor
      · intro h
        split_ifs at h <;> simp_all
      · intro h
        exact absurd hspec h
    · rw [hred]
      constructor
      · intro h
        split_ifs at h
        simp_all
        omega
      · intro h
        split_ifs with h1 h2 h3 <;> [omega; omega; omega; rfl]
    · intro err herr
      rw [hred] at herr
      split_ifs at herr
      · cases herr; rfl
      · cases herr; rfl
      · cases herr; rfl
  · have hspec : ¬ (s.toList.length = 8 ∧ ∀ c ∈ s.toList, c.isDigit = true) :=
      fun h => h8 ((isEightDigits_iff s).mpr h)
    have hform : validateDateFormat s f = .error (.invalidDateFormat f s) := by
      rw [validateDateFormat]
      rw [show isEightDigits s = false from by simpa using h8]
      rfl
    exact ⟨by rw [hform]; exact iff_of_true rfl hspec, fun h => absurd h hspec⟩

/-- Witness for C4 at `20240231` (Feb 31): eight digits, and accepted. -/
theorem validateDateFormat_spec_witness :
    ("20240231".toList.length = 8 ∧ ∀ c ∈ "20240231".toList, c.isDigit = true) ∧
      validateDateFormat "20240231" "bdate" = .ok () := by
  refine ⟨by decide, ?_⟩
  exact ((validateDateFormat_spec "20240231" "bdate").2 (by decide)).1.mpr (by decide)

/-- C5: for two format-valid tokens, range validation fails with
`CrossYearRange` exactly when their years differ, and succeeds whenever the
years agree — without any begin ≤ end check within the year. -/
theorem validateDateRange_spec (b e : String)
    (hb : validateDateFormat b "bdate" = .ok ())
    (he : validateDateFormat e "edate" = .ok ()) :
    (validateDateRange b e = .error (.crossYearRange b e) ↔
      dateYear b ≠ dateYear e) ∧
    (dateYear b = dateYear e → validateDateRange b e = .ok ()) := by
  have h8b := validateDateFormat_ok_eight hb
  have h8e := validateDateFormat_ok_eight he
  have hiff := take4_eq_iff_dateYear h8b h8e
  unfold validateDateRange
  dsimp only
  constructor
  · constructor
    · intro h hy
      split_ifs at h with ht
      exact ht (hiff.mpr hy)
    · intro hy
      rw [if_pos (fun hc => hy (hiff.mp hc))]
  · intro hy
    rw [if_neg (not_not.mpr (hiff.mpr hy))]

/-- Witness for C5 at `bdate = 20241231`, `edate = 20240101`: both
format-valid, years agree, and range validation succeeds even though the
begin date is chronologically after the end date. -/
theorem validateDateRange_spec_witness :
    validateDateFormat "20241231" "bdate" = .ok () ∧
    validateDateFormat "20240101" "edate" = .ok () ∧
    validateDateRange "20241231" "20240101" = .ok () := by
  refine ⟨by rfl, by rfl, ?_⟩
  exact (validateDateRange_spec "20241231" "20240101" rfl rfl).2 rfl

/-- C7: the constructed URL is the fixed base plus the endpoint path, and a
key/value pair appears in its query exactly when the parameter map carries
that key with that non-empty value; absent, `null`-like and empty-string
parameters appear nowhere. -/
theorem buildUrl_spec (endpoint : String) (params : List (String × JsStr)) :
    (buildUrl endpoint params).base = AQS_BASE_URL ∧
    (buildUrl endpoint params).endpoint = endpoint ∧
    ∀ k v, ((k, v) ∈ (buildUrl endpoint params).query ↔
      ((k, some v) ∈ params ∧ v ≠ "")) := by
  refine ⟨rfl, rfl, fun k v => ?_⟩
  simp only [buildUrl, List.mem_filterMap]
  constructor
  · rintro ⟨⟨k', ov⟩, hmem, hf⟩
    rcases ov with _ | v'
    · simp at hf
    · have hf' : (if v' = "" then none else some (k', v')) = some (k, v) := hf
      by_cases hvv : v' = ""
      · rw [if_pos hvv] at hf'
        exact Option.noConfusion hf'
      · rw [if_neg hvv] at hf'
        have hp : (k', v') = (k, v) := Option.some_inj.mp hf'
        rw [Prod.mk.injEq] at hp
        obtain ⟨rfl, rfl⟩ := hp
        exact ⟨hmem, hvv⟩
  · rintro ⟨hmem, hv⟩
    exact ⟨(k, some v), hmem, by simp [hv]⟩

/-- Spec-side notion of a source "yielding a value" for a credential field:
the value exists and is not the empty string. -/
def yields (o : JsStr) : Prop := ∃ s, o = some s ∧ s ≠ ""

theorem truthy_iff (o : JsStr) : truthy o = true ↔ yields o := by
  cases o with
  | none => simp [truthy, yields]
  | some s => simp [truthy, yields]

theorem truthy_false_iff (o : JsStr) : truthy o = false ↔ ¬ yields o := by
  rw [← truthy_iff]
  cases truthy o <;> simp

theorem truthy_jsOr (a b : JsStr) :
    truthy (jsOr a b) = (truthy a || truthy b) := by
  unfold jsOr
  cases h : truthy a <;> simp [h]

theorem jsOr_of_truthy {a : JsStr} (b : JsStr) (h : truthy a = true) :
    jsOr a b = a := by
  rw [jsOr, h]
  rfl

theorem jsOr_of_falsy {a : JsStr} (b : JsStr) (h : truthy a = false) :
    jsOr a b = b := by
  rw [jsOr, h]
  rfl

theorem resolveCredentials_eq (env : Env) (pe pk : JsStr) :
    resolveCredentials env pe pk =
      (if (truthy pe || truthy env.AQS_EMAIL) = false then .error .missingEmail
       else if (truthy pk || truthy env.AQS_API_KEY) = false then .error .missingKey
       else .ok ⟨(jsOr pe env.AQS_EMAIL).getD "", (jsOr pk env.AQS_API_KEY).getD ""⟩) := by
  have h1 : truthy (jsOr pe env.AQS_EMAIL) = (truthy pe || truthy env.AQS_EMAIL) :=
    truthy_jsOr _ _
  have h2 : truthy (jsOr pk env.AQS_API_KEY) = (truthy pk || truthy env.AQS_API_KEY) :=
    truthy_jsOr _ _
  unfold resolveCredentials getDefaultCredentials
  dsimp only
  rw [h1, h2]

theorem resolveCredentials_error_email_iff (env : Env) (pe pk : JsStr) :
    resolveCredentials env pe pk = .error .missingEmail ↔
      (truthy pe || truthy env.AQS_EMAIL) = false := by
  rw [resolveCredentials_eq]
  by_cases h : (truthy pe || truthy env.AQS_EMAIL) = false
  · rw [if_pos h]
    exact iff_of_true rfl h
  · rw [if_neg h]
    apply iff_of_false _ h
    split_ifs
    · intro hc
      exact ClientError.noConfusion (Except.error.inj hc)
    · intro hc
      cases hc

theorem resolveCredentials_error_key_iff (env : Env) (pe pk : JsStr) :
    resolveCredentials env pe pk = .error .missingKey ↔
      ((truthy pe || truthy env.AQS_EMAIL) = true ∧
        (truthy pk || truthy env.AQS_API_KEY) = false) := by
  rw [resolveCredentials_eq]
  by_cases h1 : (truthy pe || truthy env.AQS_EMAIL) = false
  · rw [if_pos h1]
    apply iff_of_false
    · intro hc
      exact ClientError.noConfusion (Except.error.inj hc)
    · rintro ⟨ht, _⟩
      rw [ht] at h1
      cases h1
  · rw [if_neg h1]
    have h1' : (truthy pe || truthy env.AQS_EMAIL) = true := by
      cases hx : (truthy pe || truthy env.AQS_EMAIL)
      · exact absurd hx h1
      · rfl
    by_cases h2 : (truthy pk || truthy env.AQS_API_KEY) = false
    · rw [if_pos h2]
      exact iff_of_true rfl ⟨h1', h2⟩
    · rw [if_neg h2]
      apply iff_of_false
      · intro hc
        cases hc
      · rintro ⟨_, hk⟩
        exact h2 hk

theorem resolveCredentials_ok_iff (env : Env) (pe pk : JsStr) (c : Credentials) :
    resolveCredentials env pe pk = .ok c ↔
      ((truthy pe || truthy env.AQS_EMAIL) = true ∧
        (truthy pk || truthy env.AQS_API_KEY) = true ∧
        c = ⟨(jsOr pe env.AQS_EMAIL).getD "", (jsOr pk env.AQS_API_KEY).getD ""⟩) := by
  rw [resolveCredentials_eq]
  by_cases h1 : (truthy pe || truthy env.AQS_EMAIL) = false
  · rw [if_pos h1]
    apply iff_of_false
    · intro hc
      cases hc
    · rintro ⟨ht, _⟩
      rw [ht] at h1
      cases h1
  · have h1' : (truthy pe || truthy env.AQS_EMAIL) = true := by
      cases hx : (truthy pe || truthy env.AQS_EMAIL)
      · exact absurd hx h1
      · rfl
    rw [if_neg h1]
    by_cases h2 : (truthy pk || truthy env.AQS_API_KEY) = false
    · rw [if_pos h2]
      apply iff_of_false
      · intro hc
        cases hc
      · rintro ⟨_, hk, _⟩
        rw [hk] at h2
        cases h2
    · have h2' : (truthy pk || truthy env.AQS_API_KEY) = true := by
        cases hx : (truthy pk || truthy env.AQS_API_KEY)
        · exact absurd hx h2
        · rfl
      rw [if_neg h2]
      constructor
      · intro hc
        exact ⟨h1', h2', (Except.ok.inj hc).symm⟩
      · rintro ⟨_, _, rfl⟩
        rfl

/-- C6: credential resolution prefers the caller-supplied value of each
field when one is supplied and non-empty, otherwise falls back to the
environment; it fails with the email error exactly when neither email
source yields a value, with the key error exactly when the email side
resolved but neither key source yields a value, and when all four sources
yield nothing the error names the email field first. -/
theorem resolveCredentials_spec (env : Env) (pe pk : JsStr) :
    (resolveCredentials env pe pk = .error .missingEmail ↔
      (¬ yields pe ∧ ¬ yields env.AQS_EMAIL)) ∧
    ((yields pe ∨ yields env.AQS_EMAIL) →
      (resolveCredentials env pe pk = .error .missingKey ↔
        (¬ yields pk ∧ ¬ yields env.AQS_API_KEY))) ∧
    (∀ c, resolveCredentials env pe pk = .ok c →
      ((∀ s, pe = some s → s ≠ "" → c.email = s) ∧
       (¬ yields pe → env.AQS_EMAIL = some c.email) ∧
       (∀ s, pk = some s → s ≠ "" → c.key = s) ∧
       (¬ yields pk → env.AQS_API_KEY = some c.key))) ∧
    ((¬ yields pe ∧ ¬ yields env.AQS_EMAIL ∧ ¬ yields pk ∧ ¬ yields env.AQS_API_KEY) →
      resolveCredentials env pe pk = .error .missingEmail) := by
  refine ⟨?_, ?_, ?_, ?_⟩
  · rw [resolveCredentials_error_email_iff, Bool.or_eq_false_iff]
    exact and_congr (truthy_false_iff pe) (truthy_false_iff _)
  · intro hem
    have heb : (truthy pe || truthy env.AQS_EMAIL) = true := by
      rcases hem with h | h
      · rw [(truthy_iff pe).mpr h]
        rfl
      · rw [(truthy_iff _).mpr h, Bool.or_true]
    rw [resolveCredentials_error_key_iff]
    rw [Bool.or_eq_false_iff]
    constructor
    · rintro ⟨_, hk1, hk2⟩
      exact ⟨(truthy_false_iff pk).mp hk1, (truthy_false_iff _).mp hk2⟩
    · rintro ⟨hk1, hk2⟩
      exact ⟨heb, (truthy_false_iff pk).mpr hk1, (truthy_false_iff _).mpr hk2⟩
  · intro c hc
    rw [resolveCredentials_ok_iff] at hc
    obtain ⟨heb, hkb, rfl⟩ := hc
    refine ⟨?_, ?_, ?_, ?_⟩
    · intro s hs hsne
      have ht : truthy pe = true := by
        rw [hs]
        simp [truthy, hsne]
      rw [jsOr_of_truthy _ ht, hs]
      rfl
    · intro hnpe
      have ht : truthy pe = false := (truthy_false_iff pe).mpr hnpe
      have hte : truthy env.AQS_EMAIL = true := by
        rw [ht, Bool.false_or] at heb
        exact heb
      obtain ⟨se, hse, _⟩ := (truthy_iff _).mp hte
      rw [jsOr_of_falsy _ ht]
      dsimp only
      rw [hse]
      rfl
    · intro s hs hsne
      have ht : truthy pk = true := by
        rw [hs]
        simp [truthy, hsne]
      rw [jsOr_of_truthy _ ht, hs]
      rfl
    · intro hnpk
      have ht : truthy pk = false := (truthy_false_iff pk).mpr hnpk
      have htk : truthy env.AQS_API_KEY = true := by
        rw [ht, Bool.false_or] at hkb
        exact hkb
      obtain ⟨sk, hsk, _⟩ := (truthy_iff _).mp htk
      rw [jsOr_of_falsy _ ht]
      dsimp only
      rw [hsk]
      rfl
  · rintro ⟨h1, h2, _, _⟩
    rw [resolveCredentials_error_email_iff, Bool.or_eq_false_iff]
    exact ⟨(truthy_false_iff pe).mpr h1, (truthy_false_iff _).mpr h2⟩

/-- Witness for C6 at the all-absent input: both parameters and both
environment variables missing, the resolution fails naming the email. -/
theorem resolveCredentials_spec_witness :
    resolveCredentials ⟨none, none⟩ none none = .error .missingEmail := by
  apply (resolveCredentials_spec ⟨none, none⟩ none none).2.2.2
  refine ⟨?_, ?_, ?_, ?_⟩ <;> rintro ⟨s, h, -⟩ <;> cases h

/-- C10: an empty-string caller credential behaves exactly like an absent
one — resolution falls back to the environment for that field — and when
the environment also lacks (or has an empty) value for that field, the call
fails with the corresponding missing-credential error instead of forwarding
the empty string. -/
theorem resolveCredentials_empty_as_absent (env : Env) (pe pk : JsStr) :
    (resolveCredentials env (some "") pk = resolveCredentials env none pk) ∧
    (resolveCredentials env pe (some "") = resolveCredentials env pe none) ∧
    ((env.AQS_EMAIL = none ∨ env.AQS_EMAIL = some "") →
      resolveCredentials env (some "") pk = .error .missingEmail) ∧
    ((yields pe ∨ yields env.AQS_EMAIL) →
      (env.AQS_API_KEY = none ∨ env.AQS_API_KEY = some "") →
      resolveCredentials env pe (some "") = .error .missingKey) := by
  refine ⟨rfl, rfl, ?_, ?_⟩
  · intro henv
    rw [resolveCredentials_error_email_iff, Bool.or_eq_false_iff]
    refine ⟨rfl, ?_⟩
    rcases henv with h | h <;> rw [h] <;> rfl
  · intro hem henv
    rw [resolveCredentials_error_key_iff]
    constructor
    · rcases hem with h | h
      · rw [(truthy_iff pe).mpr h]
        rfl
      · rw [(truthy_iff _).mpr h, Bool.or_true]
    · rw [Bool.or_eq_false_iff]
      refine ⟨rfl, ?_⟩
      rcases henv with h | h <;> rw [h] <;> rfl

/-- Witness for C10: empty-string email parameter with an empty environment
falls through to the missing-email error; empty-string key with a good email
falls through to the missing-key error. -/
theorem resolveCredentials_empty_as_absent_witness :
    resolveCredentials ⟨none, none⟩ (some "") none = .error .missingEmail ∧
    resolveCredentials ⟨some "a@b.com", some ""⟩ none (some "") = .error .missingKey := by
  constructor
  · exact (resolveCredentials_empty_as_absent ⟨none, none⟩ none none).2.2.1 (.inl rfl)
  · exact (resolveCredentials_empty_as_absent ⟨some "a@b.com", some ""⟩ none none).2.2.2
      (.inr ⟨"a@b.com", rfl, by decide⟩) (.inr rfl)

/-- C8: the transport's execute operation fails with an HTTP-level
`TransportError` (carrying status code and reason phrase) when the HTTP
status is outside the success range; fails with an API-level
`TransportError` (carrying the full first header) when the header array is
non-empty and its first element's status is the literal `"Failed"`; and in
every other case returns the parsed envelope unchanged. -/
theorem aqs_spec (net : Net) (now last : Int) (endpoint : String)
    (params : List (String × JsStr)) (r : HttpResult)
    (hr : net (buildUrl endpoint params) = r) :
    ((aqs net now last endpoint params).1 = classifyAqsResponse r) ∧
    (r.ok = false →
      classifyAqsResponse r = .error (.httpError r.status r.statusText)) ∧
    (∀ h t, r.ok = true → r.body.Header = h :: t → h.status = "Failed" →
      classifyAqsResponse r = .error (.apiFailed h)) ∧
    (r.ok = true → (∀ h t, r.body.Header = h :: t → h.status ≠ "Failed") →
      classifyAqsResponse r = .ok r.body) := by
  refine ⟨?_, ?_, ?_, ?_⟩
  · unfold aqs
    dsimp only
    rw [hr]
  · intro hok
    rw [classifyAqsResponse, if_pos hok]
  · intro h t hok hhd hfail
    rw [classifyAqsResponse, if_neg (by rw [hok]; simp), hhd]
    dsimp only
    rw [if_pos hfail]
  · intro hok hnofail
    rw [classifyAqsResponse, if_neg (by rw [hok]; simp)]
    cases hhd : r.body.Header with
    | nil => rfl
    | cons h t =>
        dsimp only
        rw [if_neg (hnofail h t hhd)]

/-- Witness for C8 at a concrete 503 response: the call fails with the
HTTP-level transport error carrying status and reason phrase. -/
theorem aqs_spec_witness :
    (aqs (fun _ => ⟨false, 503, "Service Unavailable", ⟨[], []⟩⟩)
        0 0 "list/states" []).1 =
      .error (.httpError 503 "Service Unavailable") := by
  have h := aqs_spec (fun _ => ⟨false, 503, "Service Unavailable", ⟨[], []⟩⟩)
    0 0 "list/states" [] ⟨false, 503, "Service Unavailable", ⟨[], []⟩⟩ rfl
  rw [h.1]
  exact h.2.1 rfl

/-- C2 counterexample: a tool handler's thrown error (here a missing email
credential) is caught at the dispatch layer and converted into a text
response — but that response carries the explicit error flag
`isError: true`, so the unknown-tool case is not the only call marked as an
explicit error result. -/
theorem dispatch_flags_caught_errors :
    dispatch [("aqs_sample_data_by_site",
        fun a : ToolArgs =>
          (sampleDataBySiteHandler ⟨none, none⟩
            (fun _ => ⟨true, 200, "OK", ⟨[], []⟩⟩) 0 0 a).1)]
      "aqs_sample_data_by_site" {} =
      { content := [⟨"Error: Email is required. Provide it as a parameter or set AQS_EMAIL environment variable."⟩],
        isError := some true } := by
  rfl

/-- C2 (amended): every error thrown by a tool handler is caught at the
dispatch layer and converted into a normal (non-exceptional) tool response
whose payload is the error's human-readable message, and an unknown tool
name yields an explicit error response — but both of these responses are
flagged `isError: true`, so the unknown-tool case is not the only one
marked as an explicit error result. -/
theorem dispatch_spec {A : Type}
    (tools : List (String × (A → Except ClientError ToolResponse)))
    (name : String) (args : A) :
    (tools.find? (fun t => t.1 == name) = none →
      dispatch tools name args =
        { content := [⟨"Unknown tool: " ++ name⟩], isError := some true }) ∧
    (∀ t, tools.find? (fun t => t.1 == name) = some t →
      ((∀ e, t.2 args = .error e →
          dispatch tools name args =
            { content := [⟨"Error: " ++ e.message⟩], isError := some true }) ∧
       (∀ r, t.2 args = .ok r → dispatch tools name args = r))) := by
  refine ⟨?_, ?_⟩
  · intro hnone
    unfold dispatch
    rw [hnone]
  · intro t ht
    constructor
    · intro e he
      unfold dispatch
      rw [ht]
      dsimp only
      rw [he]
    · intro r hrr
      unfold dispatch
      rw [ht]
      dsimp only
      rw [hrr]

/-- Witness for C2 at an empty tool table: the unknown-tool response is the
flagged error result. -/
theorem dispatch_spec_witness :
    dispatch ([] : List (String × (ToolArgs → Except ClientError ToolResponse)))
        "no_such_tool" ({} : ToolArgs) =
      { content := [⟨"Unknown tool: no_such_tool"⟩], isError := some true } :=
  (dispatch_spec [] "no_such_tool" ({} : ToolArgs)).1 rfl

theorem resolveCredentials_ok_strings {env : Env} {pe pk : JsStr} {c : Credentials}
    (h : resolveCredentials env pe pk = .ok c) : c.email ≠ "" ∧ c.key ≠ "" := by
  rw [resolveCredentials_ok_iff] at h
  obtain ⟨heb, hkb, rfl⟩ := h
  constructor
  · have ht : truthy (jsOr pe env.AQS_EMAIL) = true := by
      rw [truthy_jsOr]
      exact heb
    obtain ⟨s, hs, hne⟩ := (truthy_iff _).mp ht
    dsimp only
    rw [hs]
    simpa using hne
  · have ht : truthy (jsOr pk env.AQS_API_KEY) = true := by
      rw [truthy_jsOr]
      exact hkb
    obtain ⟨s, hs, hne⟩ := (truthy_iff _).mp ht
    dsimp only
    rw [hs]
    simpa using hne

theorem mem_buildUrl_query (endpoint : String) (params : List (String × JsStr))
    (k v : String) (h : (k, some v) ∈ params) (hv : v ≠ "") :
    (k, v) ∈ (buildUrl endpoint params).query := by
  simp only [buildUrl, List.mem_filterMap]
  exact ⟨(k, some v), h, by simp [hv]⟩

theorem sampleHandlerCore_auth (env : Env) (net : Net) (now last : Int)
    (args : ToolArgs) (endpoint : String) (extra : List (String × JsStr)) :
    ∀ c, resolveCredentials env args.email args.key = .ok c →
      ∀ u ∈ (sampleHandlerCore env net now last args endpoint extra).2.2,
        ("email", c.email) ∈ u.query ∧ ("key", c.key) ∈ u.query := by
  intro c hc u hu
  obtain ⟨hce, hck⟩ := resolveCredentials_ok_strings hc
  unfold sampleHandlerCore at hu
  rw [hc] at hu
  dsimp only at hu
  cases hb : validateDateFormat (jsToString args.bdate) "bdate" with
  | error e =>
      rw [hb] at hu
      simp at hu
  | ok v =>
      cases v
      rw [hb] at hu
      dsimp only at hu
      cases he : validateDateFormat (jsToString args.edate) "edate" with
      | error e =>
          rw [he] at hu
          simp at hu
      | ok v =>
          cases v
          rw [he] at hu
          dsimp only at hu
          cases hrange : validateDateRange (jsToString args.bdate) (jsToString args.edate) with
          | error e =>
              rw [hrange] at hu
              simp at hu
          | ok v =>
              cases v
              rw [hrange] at hu
              simp only [aqs] at hu
              cases hclass : classifyAqsResponse
                  (net (buildUrl endpoint
                    ([("email", some c.email), ("key", some c.key),
                      ("param", args.param), ("bdate", args.bdate),
                      ("edate", args.edate)] ++ extra))) with
              | error e =>
                  rw [hclass] at hu
                  dsimp only at hu
                  rw [List.mem_singleton] at hu
                  subst hu
                  exact ⟨mem_buildUrl_query _ _ _ _ (by simp) hce,
                    mem_buildUrl_query _ _ _ _ (by simp) hck⟩
              | ok resp =>
                  rw [hclass] at hu
                  dsimp only at hu
                  rw [List.mem_singleton] at hu
                  subst hu
                  exact ⟨mem_buildUrl_query _ _ _ _ (by simp) hce,
                    mem_buildUrl_query _ _ _ _ (by simp) hck⟩

theorem isAvailableHandler_auth (env : Env) (net : Net) (now last : Int)
    (args : ToolArgs) :
    ∀ c, resolveCredentials env args.email args.key = .ok c →
      ∀ u ∈ (isAvailableHandler env net now last args).2.2,
        ("email", c.email) ∈ u.query ∧ ("key", c.key) ∈ u.query := by
  intro c hc u hu
  obtain ⟨hce, hck⟩ := resolveCredentials_ok_strings hc
  unfold isAvailableHandler at hu
  rw [hc] at hu
  simp only [aqs] at hu
  cases hclass : classifyAqsResponse
      (net (buildUrl "metaData/isAvailable"
        [("email", some c.email), ("key", some c.key)])) with
  | error e =>
      rw [hclass] at hu
      dsimp only at hu
      rw [List.mem_singleton] at hu
      subst hu
      exact ⟨mem_buildUrl_query _ _ _ _ (by simp) hce,
        mem_buildUrl_query _ _ _ _ (by simp) hck⟩
  | ok resp =>
      rw [hclass] at hu
      dsimp only at hu
      split_ifs at hu <;>
        · rw [List.mem_singleton] at hu
          subst hu
          exact ⟨mem_buildUrl_query _ _ _ _ (by simp) hce,
            mem_buildUrl_query _ _ _ _ (by simp) hck⟩

theorem signupHandler_urls (net : Net) (now last : Int) (args : ToolArgs) :
    ∀ u ∈ (signupHandler net now last args).2.2,
      (∃ e, args.email = some e ∧ ("email", e) ∈ u.query) ∧
        ∀ kv ∈ u.query, kv.1 ≠ "key" := by
  intro u hu
  unfold signupHandler at hu
  cases hemail : args.email with
  | none =>
      rw [hemail] at hu
      simp at hu
  | some email =>
      rw [hemail] at hu
      dsimp only at hu
      by_cases hne : email = ""
      · rw [if_pos hne] at hu
        simp at hu
      · rw [if_neg hne] at hu
        by_cases hval : (strIncludes email "@" && strIncludes email ".") = true
        · have hcond : (!(strIncludes email "@" && strIncludes email ".")) = false := by
            rw [hval]
            rfl
          rw [hcond, if_neg Bool.false_ne_true] at hu
          simp only [aqs] at hu
          have hq : (buildUrl "signup" [("email", some email)]).query
              = [("email", email)] := by
            simp [buildUrl, List.filterMap, hne]
          cases hclass : classifyAqsResponse
              (net (buildUrl "signup" [("email", some email)])) with
          | error e =>
              rw [hclass] at hu
              dsimp only at hu
              rw [List.mem_singleton] at hu
              subst hu
              refine ⟨⟨email, rfl, by rw [hq]; exact List.mem_singleton.mpr rfl⟩, ?_⟩
              intro kv hkv
              rw [hq, List.mem_singleton] at hkv
              subst hkv
              exact (by decide : ("email" : String) ≠ "key")
          | ok resp =>
              rw [hclass] at hu
              dsimp only at hu
              split_ifs at hu <;>
                · rw [List.mem_singleton] at hu
                  subst hu
                  refine ⟨⟨email, rfl, by rw [hq]; exact List.mem_singleton.mpr rfl⟩, ?_⟩
                  intro kv hkv
                  rw [hq, List.mem_singleton] at hkv
                  subst hkv
                  exact (by decide : ("email" : String) ≠ "key")
        · rw [show (strIncludes email "@" && strIncludes email ".") = false from by
              cases hx : (strIncludes email "@" && strIncludes email ".")
              · rfl
              · exact absurd hx hval] at hu
          simp at hu

/-- C3 counterexample: the signup tool's request reaches the transport with
only the email in its query — no `key` parameter is attached — so
authentication is not attached to every upstream request. -/
theorem signup_request_lacks_key :
    (signupHandler (fun _ => ⟨true, 200, "OK", ⟨[⟨"Success", "t", "u", none⟩], []⟩⟩)
        0 0 { email := some "a@b.com" }).2.2 =
      [{ base := AQS_BASE_URL, endpoint := "signup",
         query := [("email", "a@b.com")] }] ∧
    ((signupHandler (fun _ => ⟨true, 200, "OK", ⟨[⟨"Success", "t", "u", none⟩], []⟩⟩)
        0 0 { email := some "a@b.com" }).2.2.all
      fun u => u.query.all fun kv => !(kv.1 == "key")) = true := by
  constructor
  · rfl
  · rfl

/-- C3 (amended): every upstream request issued by a credential-resolving
tool handler carries both authentication strings, `email` and `key`, in its
query parameters; the signup tool — whose purpose is to obtain a key — is
the exception: its request carries the email only and never a `key`
parameter. -/
theorem auth_attached_spec (env : Env) (net : Net) (now last : Int)
    (args : ToolArgs) :
    (∀ hd ∈ credentialedHandlers,
      ∀ c, resolveCredentials env args.email args.key = .ok c →
        ∀ u ∈ (hd env net now last args).2.2,
          ("email", c.email) ∈ u.query ∧ ("key", c.key) ∈ u.query) ∧
    (∀ u ∈ (signupHandler net now last args).2.2,
      (∃ e, args.email = some e ∧ ("email", e) ∈ u.query) ∧
        ∀ kv ∈ u.query, kv.1 ≠ "key") := by
  constructor
  · intro hd hmem
    simp only [credentialedHandlers, List.mem_cons, List.mem_singleton,
      List.not_mem_nil, or_false] at hmem
    rcases hmem with rfl | rfl | rfl | rfl | rfl | rfl
    · exact isAvailableHandler_auth env net now last args
    · exact sampleHandlerCore_auth env net now last args "sampleData/bySite"
        [("state", args.state), ("county", args.county), ("site", args.site)]
    · exact sampleHandlerCore_auth env net now last args "sampleData/byCounty"
        [("state", args.state), ("county", args.county)]
    · exact sampleHandlerCore_auth env net now last args "sampleData/byState"
        [("state", args.state)]
    · exact sampleHandlerCore_auth env net now last args "sampleData/byBox"
        [("minlat", args.minlat), ("maxlat", args.maxlat),
         ("minlon", args.minlon), ("maxlon", args.maxlon)]
    · exact sampleHandlerCore_auth env net now last args "sampleData/byCBSA"
        [("cbsa", args.cbsa)]
  · exact signupHandler_urls net now last args

/-- Witness for C3 (amended) on a concrete isAvailable run: the issued
request's query contains both the resolved email and the resolved key. -/
theorem auth_attached_spec_witness :
    ("email", "a@b.com") ∈ (buildUrl "metaData/isAvailable"
        [("email", some "a@b.com"), ("key", some "k")]).query ∧
      ("key", "k") ∈ (buildUrl "metaData/isAvailable"
        [("email", some "a@b.com"), ("key", some "k")]).query :=
  (auth_attached_spec ⟨some "a@b.com", some "k"⟩
      (fun _ => ⟨true, 200, "OK", ⟨[], []⟩⟩) 0 0 ({} : ToolArgs)).1
    isAvailableHandler (by simp [credentialedHandlers])
    ⟨"a@b.com", "k"⟩ rfl
    (buildUrl "metaData/isAvailable" [("email", some "a@b.com"), ("key", some "k")])
    (by decide)

/-- The five date-taking sample-data handlers of `src/tools/samples.ts`. -/
def dateSampleHandlers :
    List (Env → Net → Int → Int → ToolArgs → HandlerRun) :=
  [sampleDataBySiteHandler, sampleDataByCountyHandler, sampleDataByStateHandler,
   sampleDataByBoxHandler, sampleDataByCbsaHandler]

/-- C9: for every date-taking sample-data handler, when the begin and end
dates are format-valid but their years differ, the call fails with the
cross-year-range error, the process-wide throttle marker is left unchanged,
and no HTTP request is issued. -/
theorem crossYear_blocks_request (env : Env) (net : Net) (now last : Int)
    (args : ToolArgs) (c : Credentials)
    (hc : resolveCredentials env args.email args.key = .ok c)
    (hb : validateDateFormat (jsToString args.bdate) "bdate" = .ok ())
    (he : validateDateFormat (jsToString args.edate) "edate" = .ok ())
    (hy : dateYear (jsToString args.bdate) ≠ dateYear (jsToString args.edate)) :
    ∀ hd ∈ dateSampleHandlers,
      hd env net now last args =
        (.error (.crossYearRange (jsToString args.bdate) (jsToString args.edate)),
          last, ([] : List Url)) := by
  have h8b := validateDateFormat_ok_eight hb
  have h8e := validateDateFormat_ok_eight he
  have htake : (jsToString args.bdate).take 4 ≠ (jsToString args.edate).take 4 :=
    fun hcontra => hy ((take4_eq_iff_dateYear h8b h8e).mp hcontra)
  have hrange : validateDateRange (jsToString args.bdate) (jsToString args.edate)
      = .error (.crossYearRange (jsToString args.bdate) (jsToString args.edate)) := by
    rw [validateDateRange]
    rw [if_pos htake]
  have hcore : ∀ endpoint extra,
      sampleHandlerCore env net now last args endpoint extra =
        (.error (.crossYearRange (jsToString args.bdate) (jsToString args.edate)),
          last, ([] : List Url)) := by
    intro endpoint extra
    unfold sampleHandlerCore
    rw [hc, hb, he, hrange]
  intro hd hmem
  simp only [dateSampleHandlers, List.mem_cons, List.mem_singleton,
    List.not_mem_nil, or_false] at hmem
  rcases hmem with rfl | rfl | rfl | rfl | rfl
  · exact hcore "sampleData/bySite"
      [("state", args.state), ("county", args.county), ("site", args.site)]
  · exact hcore "sampleData/byCounty"
      [("state", args.state), ("county", args.county)]
  · exact hcore "sampleData/byState" [("state", args.state)]
  · exact hcore "sampleData/byBox"
      [("minlat", args.minlat), ("maxlat", args.maxlat),
       ("minlon", args.minlon), ("maxlon", args.maxlon)]
  · exact hcore "sampleData/byCBSA" [("cbsa", args.cbsa)]

/-- Witness for C9 at `bdate = 20230601`, `edate = 20240601`: the by-site
handler fails with the cross-year error, leaves the throttle marker at its
previous value, and issues no request. -/
theorem crossYear_blocks_request_witness :
    sampleDataBySiteHandler ⟨some "a@b.com", some "k"⟩
        (fun _ => ⟨true, 200, "OK", ⟨[], []⟩⟩) 0 42
        { bdate := some "20230601", edate := some "20240601" } =
      (.error (.crossYearRange "20230601" "20240601"), 42, ([] : List Url)) := by
  have h := crossYear_blocks_request ⟨some "a@b.com", some "k"⟩
    (fun _ => ⟨true, 200, "OK", ⟨[], []⟩⟩) 0 42
    { bdate := some "20230601", edate := some "20240601" } ⟨"a@b.com", "k"⟩
    rfl rfl rfl (by decide)
  exact h sampleDataBySiteHandler (by simp [dateSampleHandlers])

end AqsMcp
